import Mathlib

/-!
Verification of the runecolor perception-and-control engine.

This file gives a shallow embedding in Lean 4 of the parts of the code base
that the specification makes claims about:

- the color model and the two mask-isolation operations
  (src/utilities/color_util.py),
- the minimap rotation math of the walker (src/utilities/walker.py),
- rectangles, detected objects and their random-point sampling
  (src/utilities/geometry.py),
- contour-to-object extraction with its chunking policy
  (src/utilities/extract_contours.py),
- template search with its confidence-relaxation retry loop
  (src/utilities/img_search.py),
- the character filtering step of the OCR phrase search
  (src/utilities/ocr.py),
- the arrival test and path-following loop of the walker
  (src/utilities/walker.py).

Images are embedded as functions from row and column indices to pixel values,
machine floats of the source are embedded as rationals, random sampling is
embedded as an explicit stream of samples, and Python exceptions are embedded
with the Except monad.
-/

/-! ## Color model (src/utilities/color_util.py)

A pixel of a three-channel image is a triple of natural-number channel
intensities.  cv2.inRange is pixelwise: a pixel is white (255) in the output
mask exactly when every channel lies inclusively between the corresponding
channels of the lower and the upper bound.
-/

/-- A three-channel pixel value (channel intensities, each 0..255 in the
source; the embedding uses unrestricted naturals since no operation here
depends on the upper bound). -/
abbrev Pix := ℕ × ℕ × ℕ

/-- A three-channel image: row index, column index to pixel. -/
abbrev Img3 := ℕ → ℕ → Pix

/-- A binary mask: row index, column index to 0 (black) or 255 (white). -/
abbrev Mask := ℕ → ℕ → ℕ

/-- A Color as in color_util.Color: a lower and an upper channel bound
(equal for an exact color). -/
structure Color where
  lo : Pix
  hi : Pix
deriving DecidableEq, Repr

/-- Pixelwise embedding of cv2.inRange: 255 when the pixel lies between the
bounds on every channel, else 0.  When some channel of the lower bound
exceeds the corresponding channel of the upper bound, no pixel satisfies the
test and the mask is all-black. -/
def inRange (lo hi : Pix) (p : Pix) : ℕ :=
  if lo.1 ≤ p.1 ∧ p.1 ≤ hi.1 ∧
     lo.2.1 ≤ p.2.1 ∧ p.2.1 ≤ hi.2.1 ∧
     lo.2.2 ≤ p.2.2 ∧ p.2.2 ≤ hi.2.2 then 255 else 0

/-- Componentwise correction of a color range, as performed inside
isolate_colors (color_util.py lines 277-278): np.minimum of the two bounds
becomes the lower bound and np.maximum the upper bound. -/
def correct_bounds (c : Color) : Color :=
  ⟨(min c.lo.1 c.hi.1, min c.lo.2.1 c.hi.2.1, min c.lo.2.2 c.hi.2.2),
   (max c.lo.1 c.hi.1, max c.lo.2.1 c.hi.2.1, max c.lo.2.2 c.hi.2.2)⟩

/-- Embedding of isolate_colors (color_util.py lines 270-286), pixelwise:
one inRange mask per color, each with min/max-corrected bounds, OR-combined
onto an initially all-black mask with cv2.bitwise_or (bitwise or of the
0/255 pixel values). -/
def isolate_colors (image : Img3) (colors : List Color) : Mask :=
  fun r k =>
    (colors.map fun c =>
      inRange (correct_bounds c).lo (correct_bounds c).hi (image r k)).foldl
      Nat.lor 0

/-- Embedding of the thresholding step of isolate_contours (color_util.py
line 310): the mask is cv2.inRange of the HSV-converted image with the bounds
of the color exactly as given, with no min/max correction.  The BGR-to-HSV
conversion before it and the contour fill after it are cv2 library calls;
the input here is the already-converted HSV image, and every later step of
isolate_contours is a deterministic function of this mask. -/
def isolate_contours_mask (hsv_image : Img3) (c : Color) : Mask :=
  fun r k => inRange c.lo c.hi (hsv_image r k)

/-! ## Rounding

Python's builtin round uses round-half-to-even (bankers rounding).  It is
used by Walker.get_pixel_distance and RuneLiteObject.center.
-/

/-- Python's builtin round on a rational: round half to even. -/
def python_round (q : ℚ) : ℤ :=
  let f : ℤ := ⌊q⌋
  if q - f < 1/2 then f
  else if 1/2 < q - f then f + 1
  else if f % 2 = 0 then f else f + 1

/-- On integers, python_round is the identity. -/
theorem python_round_intCast (n : ℤ) : python_round (n : ℚ) = n := by
  simp [python_round]

/-! ## Walker rotation math (src/utilities/walker.py lines 79-107)

Walker.get_pixel_distance converts the tile-space delta between the current
position and a destination into a pixel delta in a north-aligned frame
(PIXELS_PER_TILE = 4), then rotates that delta by the camera heading.  The
heading enters only through the cosine and sine of the angle in radians, so
the embedding takes those two values as rational parameters; heading 0
corresponds to (cos, sin) = (1, 0) and heading 90 degrees clockwise to
(cos, sin) = (0, 1).
-/

/-- There are 4 pixels per tile on a default-scale minimap
(Walker.PIXELS_PER_TILE). -/
def pixels_per_tile : ℤ := 4

/-- Embedding of Walker.get_pixel_distance: the north-aligned pixel delta is
x_reg = (dest.x - self.x) * 4, y_reg = (self.y - dest.y) * 4, and the
returned minimap offset is the delta rotated through the camera heading,
x_mini = round(x_reg * cos - y_reg * sin),
y_mini = round(x_reg * sin + y_reg * cos). -/
def get_pixel_distance (cos_t sin_t : ℚ) (selfx selfy : ℤ) (dest : ℤ × ℤ) :
    ℤ × ℤ :=
  let x_reg : ℤ := (dest.1 - selfx) * pixels_per_tile
  let y_reg : ℤ := (selfy - dest.2) * pixels_per_tile
  (python_round ((x_reg : ℚ) * cos_t - (y_reg : ℚ) * sin_t),
   python_round ((x_reg : ℚ) * sin_t + (y_reg : ℚ) * cos_t))

/-- The north-aligned pixel delta formed before any rotation. -/
def north_aligned_delta (selfx selfy : ℤ) (dest : ℤ × ℤ) : ℤ × ℤ :=
  ((dest.1 - selfx) * pixels_per_tile, (selfy - dest.2) * pixels_per_tile)

/-! ## Geometry (src/utilities/geometry.py)

Point is an integer coordinate pair.  Rectangle stores left, top, width and
height exactly as passed; neither constructor validates anything.
RuneLiteObject is a detected on-screen object with a bounding box, a domain
of interior (y, x) pixel coordinates, and an optional reference to the
Rectangle it was found within (the class attribute rect defaults to None).
-/

/-- Embedding of geometry.Point: an integer pixel or tile coordinate. -/
structure Point where
  x : ℤ
  y : ℤ
deriving DecidableEq, Repr

/-- Embedding of geometry.Rectangle: the direct constructor stores the four
fields exactly as given (geometry.py lines 51-63); no validation occurs. -/
structure Rectangle where
  left : ℤ
  top : ℤ
  width : ℤ
  height : ℤ
deriving DecidableEq, Repr

/-- Embedding of Rectangle.from_points (geometry.py lines 65-86): the
alternative constructor stores the first point as the top-left corner and
the componentwise difference of the two points as width and height. -/
def Rectangle.from_points (start_point end_point : Point) : Rectangle :=
  ⟨start_point.x, start_point.y,
   end_point.x - start_point.x, end_point.y - start_point.y⟩

/-- Embedding of the Rectangle.center property: integer floor division by 2
as in Python // on nonnegative dimensions (Int.div matches Python // for the
nonnegative operands used here; the embedding uses Int.ediv via / on ℤ). -/
def Rectangle.center (r : Rectangle) : Point :=
  ⟨r.left + r.width / 2, r.top + r.height / 2⟩

/-- Embedding of geometry.RuneLiteObject: bounding box coordinates, an
interior domain of (y, x) pairs, and the optional containing-Rectangle
reference (class attribute rect = None until set_rectangle_reference). -/
structure RuneLiteObject where
  xmin : ℤ
  xmax : ℤ
  ymin : ℤ
  ymax : ℤ
  width : ℤ
  height : ℤ
  domain : List (ℤ × ℤ)
  rect : Option Rectangle

/-- Embedding of the RuneLiteObject.center property (geometry.py lines
310-331): with no containing-Rectangle reference it raises ReferenceError;
otherwise it returns the rounded bounding-box midpoint shifted by the
top-left corner of the containing Rectangle. -/
def RuneLiteObject.center (o : RuneLiteObject) : Except String Point :=
  match o.rect with
  | none => .error "ReferenceError: reference to containing Rectangle is missing"
  | some rect =>
      .ok ⟨rect.left + python_round ((o.xmin + o.xmax : ℚ) / 2),
           rect.top + python_round ((o.ymin + o.ymax : ℚ) / 2)⟩

/-- Embedding of RuneLiteObject._relative_point (geometry.py lines 401-410):
shifts a point by the top-left corner of the containing Rectangle.  With no
reference set, self.rect.left raises AttributeError (None has no attribute
left). -/
def RuneLiteObject.relative_point (o : RuneLiteObject) (p : ℤ × ℤ) :
    Except String Point :=
  match o.rect with
  | none => .error "AttributeError: NoneType object has no attribute left"
  | some rect => .ok ⟨rect.left + p.1, rect.top + p.2⟩

/-- Embedding of RuneLiteObject._point_exists (geometry.py lines 412-445).
The domain rows are (y, x) pairs.  The rows sharing the x of the queried
point and the rows sharing its y are collected; if either collection is
empty, numpy argmax raises ValueError, which the source catches and turns
into False.  Otherwise the point must lie at least pad pixels inside the
extreme y values at its x and the extreme x values at its y. -/
def RuneLiteObject.point_exists (o : RuneLiteObject) (p : ℤ × ℤ)
    (pad : ℤ := 5) : Bool :=
  let x := p.1
  let y := p.2
  let points_at_x := o.domain.filter fun q => q.2 = x
  let points_at_y := o.domain.filter fun q => q.1 = y
  match points_at_x, points_at_y with
  | [], _ => false
  | _, [] => false
  | qx :: qxs, qy :: qys =>
      let ymax_at_x := (qxs.map Prod.fst).foldl max qx.1
      let ymin_at_x := (qxs.map Prod.fst).foldl min qx.1
      let xmax_at_y := (qys.map Prod.snd).foldl max qy.2
      let xmin_at_y := (qys.map Prod.snd).foldl min qy.2
      decide (ymin_at_x + pad ≤ y ∧ y ≤ ymax_at_x - pad ∧
              xmin_at_y + pad ≤ x ∧ x ≤ xmax_at_y - pad)

/-- Loop body of RuneLiteObject.random_point (geometry.py lines 375-399),
embedded over an explicit stream s of samples from rd.random_point_in.  The
source keeps an attempt counter that starts at 0, increments after each
fresh sample, and returns self.center as soon as it exceeds 100; remaining
here equals 100 - attempt, so the structural recursion mirrors the bounded
loop exactly.  consumed counts how many samples of the stream have been
drawn so far; the pair returned is the result together with the total number
of samples drawn. -/
def RuneLiteObject.random_point_go (o : RuneLiteObject) (s : ℕ → ℤ × ℤ)
    (point : ℤ × ℤ) (remaining consumed : ℕ) :
    Except String Point × ℕ :=
  if o.point_exists point then (o.relative_point point, consumed)
  else
    match remaining with
    | 0 => (o.center, consumed + 1)
    | r + 1 => o.random_point_go s (s consumed) r (consumed + 1)

/-- Embedding of RuneLiteObject.random_point: draw the first sample, then
run the retry loop with attempt = 0 (remaining = 100).  The second component
of the result is the number of samples drawn from the stream. -/
def RuneLiteObject.random_point (o : RuneLiteObject) (s : ℕ → ℤ × ℤ) :
    Except String Point × ℕ :=
  o.random_point_go s (s 0) 100 1

/-! ## Contour extraction (src/utilities/extract_contours.py)

extract_contours runs cv2.findContours (a cv2 library call) on a binary mask
and then processes each returned external contour.  The embedding takes the
contour list as an input; a contour carries its cv2.boundingRect data
(x, y, width, height) and its filled interior domain of (y, x) coordinates.
The binary mask itself is embedded with its dimensions and a white-pixel
predicate, so that cv2.countNonZero on a numpy slice (which clips at the
image bounds) can be evaluated.
-/

/-- A binary image: dimensions plus a white-pixel predicate. -/
structure BinImg where
  rows : ℕ
  cols : ℕ
  pix : ℕ → ℕ → Bool

/-- Embedding of cv2.countNonZero on the numpy slice
image[r0:r1, c0:c1]: numpy slicing clips the end indices at the image
bounds, and the count is the number of white pixels inside. -/
def countNonZero (img : BinImg) (r0 r1 c0 c1 : ℕ) : ℕ :=
  (((Finset.range img.rows) ×ˢ (Finset.range img.cols)).filter fun p =>
    r0 ≤ p.1 ∧ p.1 < r1 ∧ c0 ≤ p.2 ∧ p.2 < c1 ∧ img.pix p.1 p.2 = true).card

/-- An external contour as returned by cv2.findContours, carrying its
cv2.boundingRect output and the domain of (y, x) points inside the filled
contour (extract_contours.py lines 50-55). -/
structure Contour where
  x : ℕ
  y : ℕ
  width : ℕ
  height : ℕ
  domain : List (ℕ × ℕ)

/-- A detected object as built by extract_contours: the argument list passed
to the RuneLiteObject constructor there.  (The Lean RuneLiteObject above
uses ℤ fields and an Option rect; to keep this part evaluable on naturals,
the object built here records the same seven arguments.) -/
structure ExtractedObj where
  xmin : ℕ
  xmax : ℕ
  ymin : ℕ
  ymax : ℕ
  width : ℕ
  height : ℕ
  domain : List (ℕ × ℕ)
deriving DecidableEq, Repr

/-- Python range(0, n, 50): the chunk start offsets used by the oversize
branch of extract_contours. -/
def chunkStarts (n : ℕ) : List ℕ :=
  (List.range ((n + 49) / 50)).map (· * 50)

/-- Embedding of the per-contour body of extract_contours
(extract_contours.py lines 46-96).  A contour whose bounding-box area is at
most 125 * 125 yields exactly one object covering the bounding box;
otherwise the bounding box is tiled into 50 x 50 chunks (rows outer, columns
inner) and one object is emitted per chunk whose slice of the mask contains
at least one white pixel, every emitted object carrying the full contour
domain unchanged. -/
def processContour (img : BinImg) (c : Contour) : List ExtractedObj :=
  let area := c.width * c.height
  if area ≤ 125 * 125 then
    [⟨c.x, c.x + c.width, c.y, c.y + c.height, c.width, c.height, c.domain⟩]
  else
    (chunkStarts c.height).flatMap fun i =>
      (chunkStarts c.width).filterMap fun j =>
        if 0 < countNonZero img (c.y + i) (c.y + i + 50)
            (c.x + j) (c.x + j + 50) then
          let sub_width := min 50 (c.width - j)
          let sub_height := min 50 (c.height - i)
          some ⟨c.x + j, c.x + j + sub_width, c.y + i, c.y + i + sub_height,
                sub_width, sub_height, c.domain⟩
        else none

/-- Embedding of extract_contours: process every external contour in order
and concatenate the results. -/
def extract_contours (img : BinImg) (contours : List Contour) :
    List ExtractedObj :=
  contours.flatMap (processContour img)

/-! ## Template search (src/utilities/img_search.py)

_search_img_in_img computes a correlation map with
cv2.matchTemplate(im, base, TM_SQDIFF_NORMED, mask=alpha), takes its global
minimum with cv2.minMaxLoc, and accepts the minimum when it is strictly
below the confidence threshold, returning the bounding Rectangle built from
the minimum location and the template dimensions.  search_img_in_rect calls
it up to num_retries times, adding 0.01 to the confidence after every failed
attempt, and falls off the loop returning None when every attempt fails.

The correlation map is embedded as dimensions plus a rational value per
position; cv2.minMaxLoc scans positions row by row and keeps the first
position attaining the strict minimum, reported as an (x, y) pair.
-/

/-- A correlation map: the value at scan row r and scan column c is the
match score of the template placed with its top-left corner at
(x, y) = (c, r). -/
structure CorrMap where
  nrows : ℕ
  ncols : ℕ
  val : ℕ → ℕ → ℚ

/-- The row-major scan order of cv2.minMaxLoc, as (x, y) location pairs. -/
def CorrMap.positions (m : CorrMap) : List (ℕ × ℕ) :=
  (List.range m.nrows).flatMap fun r =>
    (List.range m.ncols).map fun c => (c, r)

/-- Embedding of cv2.minMaxLoc restricted to the minimum: scan the map in
row-major order keeping the first strictly smallest value and its (x, y)
location.  (cv2 requires a nonempty map; the empty case returns a junk
value.) -/
def CorrMap.minScan (m : CorrMap) : ℚ × (ℕ × ℕ) :=
  match m.positions with
  | [] => (0, (0, 0))
  | p :: ps =>
      ps.foldl
        (fun best q => if m.val q.2 q.1 < best.1 then (m.val q.2 q.1, q) else best)
        (m.val p.2 p.1, p)

/-- Embedding of _search_img_in_img (img_search.py lines 33-47) given the
correlation map: accept the global minimum when it is strictly below the
confidence threshold and return the Rectangle built by
Rectangle.from_points from the minimum location and the template
dimensions hh x ww; otherwise the function falls through and returns None. -/
def search_img_in_img (corr : CorrMap) (hh ww : ℕ) (confidence : ℚ) :
    Option Rectangle :=
  let scan := corr.minScan
  let min_val := scan.1
  let min_loc := scan.2
  if min_val < confidence then
    some (Rectangle.from_points ⟨(min_loc.1 : ℤ), (min_loc.2 : ℤ)⟩
      ⟨(min_loc.1 : ℤ) + ww, (min_loc.2 : ℤ) + hh⟩)
  else none

/-- The confidence threshold used on the k-th attempt (0-based) of
search_img_in_rect: the initial confidence plus k times the fixed 0.01
increment. -/
def nth_confidence (confidence : ℚ) (k : ℕ) : ℚ :=
  confidence + k * (1 / 100)

/-- Embedding of the retry loop of search_img_in_rect (img_search.py lines
108-116): up to num_retries attempts; on success the found rectangle is
shifted by the top-left corner of the searched Rectangle when the search ran
against a live Rectangle (offset = some corner), and on exhaustion the
function falls off the loop and returns None.  The correlation map is the
same on every attempt because the template and the captured image do not
change inside the loop; only the confidence grows by 0.01 per failure. -/
def search_loop (corr : CorrMap) (hh ww : ℕ) (offset : Option Point)
    (confidence : ℚ) : ℕ → Option Rectangle
  | 0 => none
  | n + 1 =>
      match search_img_in_img corr hh ww confidence with
      | some r =>
          match offset with
          | none => some r
          | some p => some ⟨r.left + p.x, r.top + p.y, r.width, r.height⟩
      | none => search_loop corr hh ww offset (confidence + 1 / 100) n

/-! ### The masked squared-difference correlation

cv2.matchTemplate with TM_SQDIFF_NORMED and a mask is an external library
call.  Modelled from the spec: the spec describes it as alpha-aware
normalized squared-difference correlation where 0 is an exact match and
larger is worse; the model below is the masked squared-difference sum.  The
normalization of TM_SQDIFF_NORMED divides this sum by a positive factor, so
the zero positions, the nonnegativity, and hence the minimum location in the
exact-match case are the same with or without the normalization.
-/

/-- A template image: dimensions, three-channel pixels, and the alpha mask
(synthesized as fully opaque by _search_img_in_img when absent). -/
structure Template where
  th : ℕ
  tw : ℕ
  pix : ℕ → ℕ → Pix
  alpha : ℕ → ℕ → ℕ

/-- A captured search image: dimensions and three-channel pixels. -/
structure SearchImg where
  ih : ℕ
  iw : ℕ
  pix : ℕ → ℕ → Pix

/-- The squared masked channel differences of one template pixel against one
image pixel: the alpha weight multiplies the difference on each of the three
channels before squaring, as in masked squared-difference matching. -/
def pixSqDiff (a : ℕ) (t p : Pix) : ℚ :=
  ((a : ℚ) * ((t.1 : ℚ) - (p.1 : ℚ)))^2 +
  ((a : ℚ) * ((t.2.1 : ℚ) - (p.2.1 : ℚ)))^2 +
  ((a : ℚ) * ((t.2.2 : ℚ) - (p.2.2 : ℚ)))^2

/-- Modelled from the spec: the masked squared-difference score of the
template placed with its top-left corner at (x, y) of the image, summed over
all template pixels. -/
def sqdiff_score (t : Template) (im : SearchImg) (x y : ℕ) : ℚ :=
  ∑ r ∈ Finset.range t.th, ∑ c ∈ Finset.range t.tw,
    pixSqDiff (t.alpha r c) (t.pix r c) (im.pix (y + r) (x + c))

/-- Modelled from the spec: the correlation map produced by
cv2.matchTemplate(im, base, TM_SQDIFF_NORMED, mask=alpha), with the
(ih - th + 1) x (iw - tw + 1) dimensions of template matching. -/
def matchTemplateSqdiff (t : Template) (im : SearchImg) : CorrMap :=
  ⟨im.ih - t.th + 1, im.iw - t.tw + 1, fun r c => sqdiff_score t im c r⟩

/-! ## OCR phrase search character filtering (src/utilities/ocr.py 170-185)

find_textbox accepts either a single string or a list of strings.  It forms
the set of distinct non-space characters of the joined input and, for every
character missing from the font dictionary, executes
text = text.replace(char, "") inside the KeyError handler before continuing.
str.replace removes the character from a string input, but a list input has
no replace attribute, so the handler itself raises AttributeError, which
nothing catches.  The embedding folds over the distinct characters in
first-occurrence order (the Python set order is unspecified, but the final
string does not depend on the order and the error does not depend on which
unsupported character is hit first).
-/

/-- The phrase-search input: a single string or a list of strings. -/
abbrev TextInput := String ⊕ List String

/-- Python "".join(text): the string itself, or the concatenation of the
list elements. -/
def joined_text (text : TextInput) : String :=
  match text with
  | .inl s => s
  | .inr l => String.join l

/-- Python str.replace(char, "") for a one-character pattern: remove every
occurrence of the character from the string. -/
def str_remove_char (s : String) (c : Char) : String :=
  String.mk (s.toList.filter fun a => a ≠ c)

/-- The loop of find_textbox over the distinct search characters: characters
present in the font are kept for template matching; for a character missing
from the font, the KeyError handler runs text.replace(char, ""), which
rewrites a string input but raises AttributeError on a list input. -/
def drop_unsupported (font : List Char) (chars : List Char) (text : TextInput) :
    Except String TextInput :=
  match chars with
  | [] => .ok text
  | c :: rest =>
      if c ∈ font then drop_unsupported font rest text
      else
        match text with
        | .inl s =>
            drop_unsupported font rest (.inl (str_remove_char s c))
        | .inr _ => .error "AttributeError: list object has no attribute replace"

/-- Embedding of the character-filtering stage of find_textbox (ocr.py lines
170-185): the distinct non-space characters of the joined input drive the
loop, and the search string that later stages use is the result of removing
every font-unsupported character, when that removal does not itself raise. -/
def find_textbox_filter (font : List Char) (text : TextInput) :
    Except String TextInput :=
  drop_unsupported font
    (((joined_text text).toList.eraseDups).filter fun c => c ≠ ' ') text

/-! ## Walker arrival test and path following (src/utilities/walker.py)

has_arrived computes the effective padding with the Python expression
pad or self.DEST_SQUARE_SIDE_LENGTH // 2, so an explicit 0 and an absent pad
both fall back to the default; pad 0 demands exact tile equality and a
positive pad a closed square zone.  walk repeatedly re-targets and clicks the
minimap until has_arrived holds.  The bot position is embedded as a stream
indexed by the number of update_position calls so far, and the embedded loop
returns the success flag together with the number of minimap left clicks
(change_position) and zoom-reset right clicks issued.  The loop has no bound
in the source, so the embedding carries fuel and returns none when the fuel
runs out before the loop does.
-/

/-- The effective padding of Walker.has_arrived (walker.py line 177):
Python pad or dssl // 2, where None and 0 are falsy. -/
def effective_pad (pad : Option ℤ) (dssl : ℤ) : ℤ :=
  match pad with
  | some p => if p = 0 then dssl / 2 else p
  | none => dssl / 2

/-- Embedding of Walker.has_arrived (walker.py lines 157-185) at a given
current position: with effective padding 0 the test is exact tile equality,
otherwise the position must lie inside the closed square of the given
padding around the destination. -/
def has_arrived (dssl : ℤ) (pos : ℤ × ℤ) (dest : Point) (pad : Option ℤ) :
    Bool :=
  let p := effective_pad pad dssl
  if p = 0 then decide (pos.1 = dest.x ∧ pos.2 = dest.y)
  else
    decide (dest.x - p ≤ pos.1 ∧ pos.1 ≤ dest.x + p ∧
            dest.y - p ≤ pos.2 ∧ pos.2 ≤ dest.y + p)

/-- Embedding of Walker.get_target_posn (walker.py lines 125-155) at a given
current position: search the path back to front for the first waypoint whose
x and y tile distances from the position are both within max_horizon; when
no waypoint qualifies the source logs a blocked-path message and returns
None. -/
def get_target_posn (max_horizon : ℤ) (pos : ℤ × ℤ) (walk_path : List Point) :
    Option Point :=
  walk_path.reverse.find? fun w =>
    decide ((w.x - pos.1).natAbs ≤ max_horizon.natAbs ∧
            (w.y - pos.2).natAbs ≤ max_horizon.natAbs)

/-- The walker configuration and environment for the embedded walk loop:
the destination-square side length, the re-targeting horizon, the zoom-reset
flag, and the stream of bot positions indexed by update_position call
count. -/
structure WalkerEnv where
  dssl : ℤ
  max_horizon : ℤ
  reset_zoom_each_embark : Bool
  positions : ℕ → ℤ × ℤ

/-- One pass of the while loop of Walker.walk (walker.py lines 210-225),
embedded with fuel.  State: t counts update_position calls so far, clicks
counts minimap left clicks issued by change_position, rclicks counts the
zoom-reset right clicks, and embarking mirrors the source flag.  Each
has_arrived call performs one position update; change_position performs two
(its own and the one inside get_pixel_distance) and issues one left click.
When get_target_posn yields no waypoint, change_position dereferences
None.x inside get_pixel_distance, the raised AttributeError is caught by the
surrounding except, and walk returns False.  The mouse motion itself and the
camera reads are external effects with no bearing on the returned values. -/
def walk_go (w : WalkerEnv) (walk_path : List Point) (dest : Point) :
    ℕ → ℕ → ℕ → ℕ → Bool → Option (Bool × ℕ × ℕ)
  | 0, _, _, _, _ => none
  | fuel + 1, t, clicks, rclicks, embarking =>
      if has_arrived w.dssl (w.positions t) dest none then
        some (true, clicks, rclicks)
      else
        -- get_target_posn performs its own update_position call.
        let target := get_target_posn w.max_horizon (w.positions (t + 1)) walk_path
        let rclicks' :=
          if w.reset_zoom_each_embark ∧ embarking then rclicks + 1
          else rclicks
        let embarking' :=
          if w.reset_zoom_each_embark ∧ embarking then false else embarking
        -- The double-check helps the source stop gracefully.
        if has_arrived w.dssl (w.positions (t + 2)) dest none then
          some (true, clicks, rclicks')
        else
          match target with
          | none =>
              -- change_position(None) raises AttributeError inside
              -- get_pixel_distance before any click; the except clause of
              -- walk catches it and reports failure.
              some (false, clicks, rclicks')
          | some _ =>
              -- change_position: two updates, one left click targeting the
              -- minimap projection of the target waypoint.
              walk_go w walk_path dest fuel (t + 5) (clicks + 1) rclicks'
                embarking'

/-- Embedding of Walker.walk (walker.py lines 187-232): the destination
defaults to the last waypoint (indexing an empty path raises IndexError
outside the try block), and the loop then runs until arrival or a blocked
path. -/
def walk (w : WalkerEnv) (walk_path : List Point) (dest : Option Point)
    (fuel : ℕ) : Except String (Option (Bool × ℕ × ℕ)) :=
  match walk_path.getLast? with
  | none => .error "IndexError: list index out of range"
  | some last =>
      let d := dest.getD last
      .ok (walk_go w walk_path d fuel 0 0 0 true)

/-! # Theorems -/

/-! ## C1: bound auto-correction at isolation time -/

/-- C1, counterexample: contour isolation does not auto-correct an inverted
range.  On a one-pixel HSV image with pixel (7, 100, 100) and the color
range lower (10, 0, 0), upper (5, 255, 255) (hue bounds inverted), the
thresholding step of isolate_contours returns the all-black mask, while the
same step with the min/max-corrected bounds marks the pixel white; so the
claim that every isolation operation, including contour isolation, produces
the same mask as with corrected bounds is false on the code. -/
theorem claim_C1_counterexample :
    isolate_contours_mask (fun _ _ => (7, 100, 100))
        ⟨(10, 0, 0), (5, 255, 255)⟩ 0 0 = 0 ∧
    isolate_contours_mask (fun _ _ => (7, 100, 100))
        (correct_bounds ⟨(10, 0, 0), (5, 255, 255)⟩) 0 0 = 255 ∧
    isolate_contours_mask (fun _ _ => (7, 100, 100))
        ⟨(10, 0, 0), (5, 255, 255)⟩ 0 0 ≠
      isolate_contours_mask (fun _ _ => (7, 100, 100))
        (correct_bounds ⟨(10, 0, 0), (5, 255, 255)⟩) 0 0 := by
  refine ⟨by decide, by decide, by decide⟩

/-- C1, amended: isolate_colors applies the componentwise min/max correction
at isolation time, so any two color ranges with the same corrected bounds
(in particular, a range with lower and upper swapped on any subset of
channels) produce the same binary mask; isolate_contours applies no
correction, and a range whose upper bound is below its lower bound on some
channel silently yields the all-black (empty) mask there. -/
theorem claim_C1_amended :
    (∀ (img : Img3) (c c' : Color), correct_bounds c = correct_bounds c' →
       ∀ r k, isolate_colors img [c] r k = isolate_colors img [c'] r k) ∧
    (∀ (img : Img3) (d : Color),
       (d.hi.1 < d.lo.1 ∨ d.hi.2.1 < d.lo.2.1 ∨ d.hi.2.2 < d.lo.2.2) →
       ∀ r k, isolate_contours_mask img d r k = 0) := by
  constructor
  · intro img c c' hcc r k
    simp only [isolate_colors, List.map_cons, List.map_nil, hcc]
  · intro img d hd r k
    rcases hd with h | h | h <;>
    · simp only [isolate_contours_mask, inRange]
      split
      · omega
      · rfl

/-- C1, witness: the amended theorem applied at the one-pixel image and the
inverted hue range of the counterexample. -/
theorem claim_C1_witness :
    isolate_colors (fun _ _ => (7, 100, 100))
        [⟨(10, 0, 0), (5, 255, 255)⟩] 0 0 =
      isolate_colors (fun _ _ => (7, 100, 100))
        [⟨(5, 255, 255), (10, 0, 0)⟩] 0 0 ∧
    isolate_contours_mask (fun _ _ => (7, 100, 100))
        ⟨(10, 0, 0), (5, 255, 255)⟩ 0 0 = 0 := by
  exact ⟨claim_C1_amended.1 _ _ _ (by decide) 0 0,
         claim_C1_amended.2 _ _ (by decide) 0 0⟩

/-! ## C2: minimap rotation of the tile delta -/

/-- C2, counterexample: with camera heading 90 degrees, that is
(cos, sin) = (0, 1), the claim says the north-aligned delta (dx, dy) maps to
(dy, -dx).  From position (0, 0) toward destination tile (1, 1) the
north-aligned delta is (4, -4), the claimed image is (-4, -4), but
get_pixel_distance returns (4, 4). -/
theorem claim_C2_counterexample :
    north_aligned_delta 0 0 (1, 1) = (4, -4) ∧
    get_pixel_distance 0 1 0 0 (1, 1) = (4, 4) ∧
    get_pixel_distance 0 1 0 0 (1, 1) ≠ (-4, -4) := by
  refine ⟨by decide, ?_, ?_⟩ <;>
    simp [get_pixel_distance, python_round, pixels_per_tile]

/-- C2, amended: get_pixel_distance first forms the north-aligned pixel
delta (tile delta times 4 pixels per tile) and then rotates it by the
heading; with heading 0 (cos 1, sin 0) the result is the unrotated delta,
and with heading 90 degrees (cos 0, sin 1) a north-aligned delta (dx, dy)
maps to (-dy, dx). -/
theorem claim_C2_amended (selfx selfy : ℤ) (dest : ℤ × ℤ) :
    get_pixel_distance 1 0 selfx selfy dest =
      north_aligned_delta selfx selfy dest ∧
    get_pixel_distance 0 1 selfx selfy dest =
      (-(north_aligned_delta selfx selfy dest).2,
       (north_aligned_delta selfx selfy dest).1) := by
  constructor
  · simp only [get_pixel_distance, north_aligned_delta, mul_one, mul_zero,
      sub_zero, zero_add]
    rw [python_round_intCast, python_round_intCast]
  · simp only [get_pixel_distance, north_aligned_delta, mul_one, mul_zero,
      zero_sub, add_zero]
    rw [← Int.cast_neg, python_round_intCast, python_round_intCast]

/-! ## C7: Rectangle width and height nonnegativity -/

/-- C7, counterexample: Rectangle.from_points applied to a start point
below and to the right of the end point produces negative width and height;
no constructor validates, so the claimed invariant fails. -/
theorem claim_C7_counterexample :
    ¬ (0 ≤ (Rectangle.from_points ⟨5, 5⟩ ⟨0, 0⟩).width ∧
       0 ≤ (Rectangle.from_points ⟨5, 5⟩ ⟨0, 0⟩).height) := by
  decide

/-- C7, amended: neither constructor validates.  Direct construction stores
width and height exactly as given, and from_points yields width equal to
the x difference and height equal to the y difference of the two points;
these are nonnegative exactly when the end point lies componentwise at or
beyond the start point. -/
theorem claim_C7_amended :
    (∀ l t w h : ℤ, (Rectangle.mk l t w h).width = w ∧
       (Rectangle.mk l t w h).height = h) ∧
    (∀ p q : Point,
       (Rectangle.from_points p q).width = q.x - p.x ∧
       (Rectangle.from_points p q).height = q.y - p.y ∧
       (p.x ≤ q.x → 0 ≤ (Rectangle.from_points p q).width) ∧
       (p.y ≤ q.y → 0 ≤ (Rectangle.from_points p q).height)) := by
  refine ⟨fun l t w h => ⟨rfl, rfl⟩, fun p q => ⟨rfl, rfl, ?_, ?_⟩⟩ <;>
  · intro h
    simp only [Rectangle.from_points]
    omega

/-- C7, witness: the amended theorem applied at points (0, 0) and (3, 2),
whose ordering discharges both nonnegativity hypotheses. -/
theorem claim_C7_witness :
    (Rectangle.from_points ⟨0, 0⟩ ⟨3, 2⟩).width = 3 - 0 ∧
    0 ≤ (Rectangle.from_points ⟨0, 0⟩ ⟨3, 2⟩).width ∧
    0 ≤ (Rectangle.from_points ⟨0, 0⟩ ⟨3, 2⟩).height := by
  exact ⟨(claim_C7_amended.2 ⟨0, 0⟩ ⟨3, 2⟩).1,
         (claim_C7_amended.2 ⟨0, 0⟩ ⟨3, 2⟩).2.2.1 (by decide),
         (claim_C7_amended.2 ⟨0, 0⟩ ⟨3, 2⟩).2.2.2 (by decide)⟩

/-! ## C8 and C10: detected-object center and random interior point -/

/-- With no containing-Rectangle reference, every path through the
random_point loop ends in an error: a candidate that passes the membership
test reaches relative_point (AttributeError) and exhausting the attempts
reaches center (ReferenceError). -/
theorem random_point_go_err_of_rect_none (o : RuneLiteObject)
    (h : o.rect = none) (s : ℕ → ℤ × ℤ) :
    ∀ (remaining : ℕ) (point : ℤ × ℤ) (consumed : ℕ),
      ∃ e, (o.random_point_go s point remaining consumed).1 = .error e := by
  intro remaining
  induction remaining with
  | zero =>
      intro point consumed
      by_cases hp : o.point_exists point
      · exact ⟨"AttributeError: NoneType object has no attribute left",
          by simp [RuneLiteObject.random_point_go, hp,
            RuneLiteObject.relative_point, h]⟩
      · exact ⟨"ReferenceError: reference to containing Rectangle is missing",
          by simp [RuneLiteObject.random_point_go, hp,
            RuneLiteObject.center, h]⟩
  | succ r ih =>
      intro point consumed
      by_cases hp : o.point_exists point
      · exact ⟨"AttributeError: NoneType object has no attribute left",
          by simp [RuneLiteObject.random_point_go, hp,
            RuneLiteObject.relative_point, h]⟩
      · simpa [RuneLiteObject.random_point_go, hp] using
          ih (s consumed) (consumed + 1)

/-- C8: with the containing-rectangle reference unset, querying the center
returns the ReferenceError and requesting a random interior point returns an
error for every stream of samples; neither call produces a point. -/
theorem claim_C8_unset_reference_errors (o : RuneLiteObject)
    (h : o.rect = none) :
    (∃ e, o.center = .error e) ∧
    ∀ s : ℕ → ℤ × ℤ, ∃ e, (o.random_point s).1 = .error e := by
  refine ⟨⟨"ReferenceError: reference to containing Rectangle is missing",
    by simp [RuneLiteObject.center, h]⟩, fun s => ?_⟩
  exact random_point_go_err_of_rect_none o h s 100 (s 0) 1

/-- C8, witness: the theorem applied to a concrete object with no
containing-Rectangle reference and a constant sample stream. -/
theorem claim_C8_witness :
    (∃ e, (RuneLiteObject.mk 0 10 0 10 10 10 [] none).center = .error e) ∧
    (∃ e, ((RuneLiteObject.mk 0 10 0 10 10 10 [] none).random_point
        (fun _ => (1, 1))).1 = .error e) := by
  have h := claim_C8_unset_reference_errors
    (RuneLiteObject.mk 0 10 0 10 10 10 [] none) rfl
  exact ⟨h.1, h.2 (fun _ => (1, 1))⟩

/-- When the current candidate and every stream sample tested inside the
remaining attempts fail the membership test, the loop returns the center
after drawing remaining + 1 further samples. -/
theorem random_point_go_all_fail (o : RuneLiteObject) (s : ℕ → ℤ × ℤ) :
    ∀ (remaining : ℕ) (point : ℤ × ℤ) (consumed : ℕ),
      o.point_exists point = false →
      (∀ i, consumed ≤ i → i < consumed + remaining →
        o.point_exists (s i) = false) →
      o.random_point_go s point remaining consumed =
        (o.center, consumed + remaining + 1) := by
  intro remaining
  induction remaining with
  | zero =>
      intro point consumed hp _
      simp [RuneLiteObject.random_point_go, hp]
  | succ r ih =>
      intro point consumed hp hs
      have hnext : o.point_exists (s consumed) = false :=
        hs consumed le_rfl (by omega)
      have htail : ∀ i, consumed + 1 ≤ i → i < consumed + 1 + r →
          o.point_exists (s i) = false := fun i h1 h2 => hs i (by omega) (by omega)
      have hrec := ih (s consumed) (consumed + 1) hnext htail
      simp only [RuneLiteObject.random_point_go, hp, Bool.false_eq_true,
        if_false, hrec, Prod.mk.injEq]
      exact ⟨trivial, by omega⟩

/-- The loop draws at most consumed + remaining + 1 samples in total. -/
theorem random_point_go_consumed_le (o : RuneLiteObject) (s : ℕ → ℤ × ℤ) :
    ∀ (remaining : ℕ) (point : ℤ × ℤ) (consumed : ℕ),
      (o.random_point_go s point remaining consumed).2 ≤
        consumed + remaining + 1 := by
  intro remaining
  induction remaining with
  | zero =>
      intro point consumed
      by_cases hp : o.point_exists point <;>
        simp [RuneLiteObject.random_point_go, hp]
  | succ r ih =>
      intro point consumed
      by_cases hp : o.point_exists point
      · simp [RuneLiteObject.random_point_go, hp]
        omega
      · have := ih (s consumed) (consumed + 1)
        simp only [RuneLiteObject.random_point_go, hp, Bool.false_eq_true,
          if_false]
        omega

/-- C10, counterexample: on an object whose domain is empty (so every
membership test fails) the loop draws 102 samples, not at most 101, before
falling back to the center. -/
theorem claim_C10_counterexample :
    ((RuneLiteObject.mk 0 10 0 10 10 10 [] (some ⟨0, 0, 50, 50⟩)).random_point
        (fun _ => (1, 1))).2 = 102 ∧
    ¬ (((RuneLiteObject.mk 0 10 0 10 10 10 []
        (some ⟨0, 0, 50, 50⟩)).random_point (fun _ => (1, 1))).2 ≤ 101) := by
  have h := random_point_go_all_fail
    (RuneLiteObject.mk 0 10 0 10 10 10 [] (some ⟨0, 0, 50, 50⟩))
    (fun _ => (1, 1)) 100 (1, 1) 1 rfl (fun i _ _ => rfl)
  unfold RuneLiteObject.random_point
  rw [h]
  exact ⟨rfl, by norm_num⟩

/-- C10, amended: requesting a random interior point always returns after
drawing at most 102 candidate points (of which at most 101 are tested), and
when every tested candidate fails the interior-membership test the object
center is returned as the fallback after exactly 102 draws. -/
theorem claim_C10_amended (o : RuneLiteObject) (s : ℕ → ℤ × ℤ) :
    (o.random_point s).2 ≤ 102 ∧
    ((∀ i, i ≤ 100 → o.point_exists (s i) = false) →
      o.random_point s = (o.center, 102)) := by
  constructor
  · exact random_point_go_consumed_le o s 100 (s 0) 1
  · intro hall
    have h := random_point_go_all_fail o s 100 (s 0) 1
      (hall 0 (by omega)) (fun i h1 h2 => hall i (by omega))
    simpa [RuneLiteObject.random_point] using h

/-- C10, witness: the amended theorem applied to a concrete object with an
empty domain, whose membership test fails on every sample. -/
theorem claim_C10_witness :
    ((RuneLiteObject.mk 0 20 0 20 20 20 [] (some ⟨0, 0, 99, 99⟩)).random_point
        (fun _ => (2, 2))).2 ≤ 102 ∧
    (RuneLiteObject.mk 0 20 0 20 20 20 [] (some ⟨0, 0, 99, 99⟩)).random_point
        (fun _ => (2, 2)) =
      ((RuneLiteObject.mk 0 20 0 20 20 20 [] (some ⟨0, 0, 99, 99⟩)).center,
        102) := by
  have h := claim_C10_amended
    (RuneLiteObject.mk 0 20 0 20 20 20 [] (some ⟨0, 0, 99, 99⟩))
    (fun _ => (2, 2))
  exact ⟨h.1, h.2 (fun i _ => rfl)⟩

/-! ## C9: path following with the destination already satisfied -/

/-- C9: on a single-point path whose destination is already satisfied by
the current position, walk returns success immediately with zero minimap
clicks and zero zoom-reset right clicks, for any positive fuel. -/
theorem claim_C9_immediate_arrival (w : WalkerEnv) (p : Point) (fuel : ℕ)
    (h : has_arrived w.dssl (w.positions 0) p none = true) :
    walk w [p] none (fuel + 1) = .ok (some (true, 0, 0)) := by
  simp [walk, walk_go, h]

/-- C9, witness: a walker whose position stream sits on the destination
tile (3, 4) with the default destination-square side length 1, applied to
the single-point path at that tile. -/
theorem claim_C9_witness :
    walk ⟨1, 12, true, fun _ => (3, 4)⟩ [⟨3, 4⟩] none 1 =
      .ok (some (true, 0, 0)) := by
  exact claim_C9_immediate_arrival ⟨1, 12, true, fun _ => (3, 4)⟩ ⟨3, 4⟩ 0
    (by decide)

/-! ## C3: contour extraction and the chunking policy -/

/-- A filterMap whose function succeeds on every element preserves length. -/
theorem length_filterMap_all_some {α β : Type} (f : α → Option β) :
    ∀ l : List α, (∀ a ∈ l, (f a).isSome) → (l.filterMap f).length = l.length := by
  intro l
  induction l with
  | nil => intro _; rfl
  | cons a l ih =>
      intro h
      have ha := h a (by simp)
      obtain ⟨b, hb⟩ := Option.isSome_iff_exists.mp ha
      simp [List.filterMap_cons, hb, ih fun x hx => h x (by simp [hx])]

/-- A flatMap whose inner lists all have length n multiplies the length
by n. -/
theorem length_flatMap_const {α β : Type} (f : α → List β) (n : ℕ) :
    ∀ l : List α, (∀ a ∈ l, (f a).length = n) →
      (l.flatMap f).length = l.length * n := by
  intro l
  induction l with
  | nil => intro _; simp
  | cons a l ih =>
      intro h
      have := ih fun x hx => h x (by simp [hx])
      simp only [List.flatMap_cons, List.length_append, this, h a (by simp),
        List.length_cons]
      ring

/-- Every chunk start offset lies strictly inside the tiled dimension. -/
theorem chunkStarts_lt (n : ℕ) : ∀ i ∈ chunkStarts n, i < n := by
  intro i hi
  simp only [chunkStarts, List.mem_map, List.mem_range] at hi
  obtain ⟨m, hm, rfl⟩ := hi
  omega

/-- There are ceil(n / 50) chunk start offsets. -/
theorem length_chunkStarts (n : ℕ) : (chunkStarts n).length = (n + 49) / 50 := by
  simp [chunkStarts]

/-- A white pixel inside the clipped slice makes cv2.countNonZero positive. -/
theorem countNonZero_pos (img : BinImg) (r0 r1 c0 c1 r c : ℕ)
    (h1 : r0 ≤ r) (h2 : r < r1) (h3 : r < img.rows)
    (h4 : c0 ≤ c) (h5 : c < c1) (h6 : c < img.cols)
    (h7 : img.pix r c = true) :
    0 < countNonZero img r0 r1 c0 c1 := by
  unfold countNonZero
  apply Finset.card_pos.mpr
  exact ⟨(r, c), by
    simp only [Finset.mem_filter, Finset.mem_product, Finset.mem_range]
    exact ⟨⟨h3, h6⟩, h1, h2, h4, h5, h7⟩⟩

/-- C3: for each external contour, a bounding-box area of at most 125 x 125
yields exactly one detected object; a larger bounding box that is entirely
foreground and lies inside the mask yields exactly
ceil(height / 50) * ceil(width / 50) chunk objects; and every emitted object
carries the full, undivided interior domain of its contour. -/
theorem claim_C3_extraction (img : BinImg) (c : Contour) :
    (c.width * c.height ≤ 125 * 125 → (processContour img c).length = 1) ∧
    (125 * 125 < c.width * c.height →
      c.x + c.width ≤ img.cols → c.y + c.height ≤ img.rows →
      (∀ r k, c.y ≤ r → r < c.y + c.height → c.x ≤ k → k < c.x + c.width →
        img.pix r k = true) →
      (processContour img c).length =
        ((c.height + 49) / 50) * ((c.width + 49) / 50)) ∧
    (∀ o ∈ processContour img c, o.domain = c.domain) := by
  refine ⟨?_, ?_, ?_⟩
  · intro hle
    simp only [processContour]
    rw [if_pos hle]
    rfl
  · intro hgt hcols hrows hall
    have hnle : ¬ (c.width * c.height ≤ 125 * 125) := by omega
    simp only [processContour]
    rw [if_neg hnle]
    rw [length_flatMap_const _ ((c.width + 49) / 50), length_chunkStarts]
    intro i hi
    rw [length_filterMap_all_some, length_chunkStarts]
    intro j hj
    have hih : i < c.height := chunkStarts_lt _ i hi
    have hjw : j < c.width := chunkStarts_lt _ j hj
    have hpos : 0 < countNonZero img (c.y + i) (c.y + i + 50)
        (c.x + j) (c.x + j + 50) :=
      countNonZero_pos img _ _ _ _ (c.y + i) (c.x + j)
        le_rfl (by omega) (by omega) le_rfl (by omega) (by omega)
        (hall _ _ (by omega) (by omega) (by omega) (by omega))
    simp [hpos]
  · intro o ho
    by_cases hle : c.width * c.height ≤ 125 * 125
    · simp only [processContour] at ho
      rw [if_pos hle] at ho
      simp only [List.mem_singleton] at ho
      subst ho
      rfl
    · simp only [processContour] at ho
      rw [if_neg hle] at ho
      rw [List.mem_flatMap] at ho
      obtain ⟨i, _, hin⟩ := ho
      rw [List.mem_filterMap] at hin
      obtain ⟨j, _, hsome⟩ := hin
      by_cases hpos : 0 < countNonZero img (c.y + i) (c.y + i + 50)
          (c.x + j) (c.x + j + 50)
      · rw [if_pos hpos] at hsome
        cases hsome
        rfl
      · rw [if_neg hpos] at hsome
        cases hsome

/-- C3, witness: a 300 x 300 all-foreground contour in a 300 x 300 mask
yields 36 chunk objects, and a 10 x 10 contour yields exactly one object. -/
theorem claim_C3_witness :
    (processContour ⟨300, 300, fun _ _ => true⟩
        ⟨0, 0, 300, 300, []⟩).length = 36 ∧
    (processContour ⟨10, 10, fun _ _ => true⟩
        ⟨0, 0, 10, 10, [(0, 0)]⟩).length = 1 := by
  constructor
  · have h := (claim_C3_extraction ⟨300, 300, fun _ _ => true⟩
        ⟨0, 0, 300, 300, []⟩).2.1
        (by decide) (by decide) (by decide) (fun r k _ _ _ _ => rfl)
    rw [h]
    decide
  · exact (claim_C3_extraction ⟨10, 10, fun _ _ => true⟩
      ⟨0, 0, 10, 10, [(0, 0)]⟩).1 (by decide)

/-! ## C4: template-search failure and the retry schedule -/

/-- C4: when the minimum match score stays at or above every confidence
threshold of the schedule, the retry loop of search_img_in_rect makes at
most the given number of attempts and returns None (no exception is
modelled: the loop falls off the end); and the per-attempt thresholds
confidence + k * 0.01 are monotone in the attempt number. -/
theorem claim_C4_search_miss (corr : CorrMap) (hh ww : ℕ)
    (offset : Option Point) (confidence : ℚ) (n : ℕ) :
    ((∀ k, k < n → nth_confidence confidence k ≤ corr.minScan.1) →
      search_loop corr hh ww offset confidence n = none) ∧
    (∀ j k, j ≤ k →
      nth_confidence confidence j ≤ nth_confidence confidence k) := by
  constructor
  · induction n generalizing confidence with
    | zero => intro _; rfl
    | succ m ih =>
        intro h
        have h0 : confidence ≤ corr.minScan.1 := by
          have := h 0 (by omega)
          simpa [nth_confidence] using this
        have hnone : search_img_in_img corr hh ww confidence = none := by
          simp only [search_img_in_img]
          rw [if_neg (not_lt.mpr h0)]
        simp only [search_loop, hnone]
        apply ih
        intro k hk
        have hk1 := h (k + 1) (by omega)
        simp only [nth_confidence] at hk1 ⊢
        push_cast at hk1 ⊢
        linarith
  · intro j k hjk
    simp only [nth_confidence]
    have hc : (j : ℚ) ≤ (k : ℚ) := by exact_mod_cast hjk
    linarith

/-- C4, witness: a 1 x 1 correlation map whose only score is 1/2 never
passes the thresholds 0.15, 0.16, 0.17, so three attempts return None; and
the threshold schedule is monotone between attempts 0 and 2. -/
theorem claim_C4_witness :
    search_loop ⟨1, 1, fun _ _ => (1 : ℚ)/2⟩ 4 4 none (3/20) 3 = none ∧
    nth_confidence (3/20) 0 ≤ nth_confidence (3/20) 2 := by
  refine ⟨(claim_C4_search_miss ⟨1, 1, fun _ _ => (1 : ℚ)/2⟩ 4 4 none
      (3/20) 3).1 ?_,
    (claim_C4_search_miss ⟨1, 1, fun _ _ => (1 : ℚ)/2⟩ 4 4 none
      (3/20) 3).2 0 2 (by omega)⟩
  intro k hk
  interval_cases k <;>
    norm_num [nth_confidence, CorrMap.minScan, CorrMap.positions,
      List.range_succ]

/-! ## C5: exact-match template search -/

/-- A position pair lies in the scan order exactly when its coordinates are
inside the correlation-map dimensions. -/
theorem mem_positions (m : CorrMap) (p : ℕ × ℕ) :
    p ∈ m.positions ↔ p.2 < m.nrows ∧ p.1 < m.ncols := by
  obtain ⟨x, y⟩ := p
  simp only [CorrMap.positions, List.mem_flatMap, List.mem_map,
    List.mem_range]
  constructor
  · rintro ⟨r, hr, c, hc, heq⟩
    cases heq
    exact ⟨hr, hc⟩
  · rintro ⟨hy, hx⟩
    exact ⟨y, hy, x, hx, rfl⟩

/-- Folding the strict-minimum scan over a list on which one element has
value zero, all values are nonnegative, and zero is attained only at that
element, yields exactly that element with value zero (for any accumulator
that is either already the zero element or beatable). -/
theorem foldl_min_unique_zero {α : Type} (f : α → ℚ) (pstar : α)
    (hz : f pstar = 0) :
    ∀ (l : List α) (acc : ℚ × α),
      (∀ p ∈ l, 0 ≤ f p ∧ (f p = 0 → p = pstar)) →
      (acc = (0, pstar) ∨ (0 < acc.1 ∧ pstar ∈ l)) →
      l.foldl (fun best q => if f q < best.1 then (f q, q) else best) acc =
        (0, pstar) := by
  intro l
  induction l with
  | nil =>
      intro acc _ hacc
      rcases hacc with h | h
      · simpa using h
      · exact absurd h.2 (List.not_mem_nil pstar)
  | cons q l ih =>
      intro acc hall hacc
      simp only [List.foldl_cons]
      rcases hacc with rfl | ⟨hpos, hmem⟩
      · have h0 : ¬ (f q < ((0 : ℚ), pstar).1) := not_lt.mpr (hall q (by simp)).1
        rw [if_neg h0]
        exact ih _ (fun p hp => hall p (List.mem_cons_of_mem q hp)) (Or.inl rfl)
      · by_cases hq : q = pstar
        · subst hq
          have hlt : f q < acc.1 := by rw [hz]; exact hpos
          rw [if_pos hlt, hz]
          exact ih _ (fun p hp => hall p (List.mem_cons_of_mem q hp)) (Or.inl rfl)
        · have hmem' : pstar ∈ l := by
            rcases List.mem_cons.mp hmem with h | h
            · exact absurd h.symm hq
            · exact h
          by_cases hlt : f q < acc.1
          · rw [if_pos hlt]
            have hfq : 0 < f q := by
              rcases lt_or_eq_of_le (hall q (by simp)).1 with h | h
              · exact h
              · exact absurd ((hall q (by simp)).2 h.symm) hq
            exact ih _ (fun p hp => hall p (List.mem_cons_of_mem q hp))
              (Or.inr ⟨hfq, hmem'⟩)
          · rw [if_neg hlt]
            exact ih _ (fun p hp => hall p (List.mem_cons_of_mem q hp))
              (Or.inr ⟨hpos, hmem'⟩)

/-- When the value at (x0, y0) is zero, all map values are nonnegative, and
zero is attained only there, the minimum scan reports value 0 at location
(x0, y0). -/
theorem minScan_unique_zero (m : CorrMap) (x0 y0 : ℕ)
    (hy : y0 < m.nrows) (hx : x0 < m.ncols)
    (hz : m.val y0 x0 = 0)
    (hprop : ∀ p ∈ m.positions, 0 ≤ m.val p.2 p.1 ∧
      (m.val p.2 p.1 = 0 → p = (x0, y0))) :
    m.minScan = (0, (x0, y0)) := by
  have hmem : ((x0, y0) : ℕ × ℕ) ∈ m.positions :=
    (mem_positions m (x0, y0)).mpr ⟨hy, hx⟩
  unfold CorrMap.minScan
  cases hps : m.positions with
  | nil => rw [hps] at hmem; exact absurd hmem (List.not_mem_nil _)
  | cons p ps =>
      rw [hps] at hmem hprop
      apply foldl_min_unique_zero (fun q : ℕ × ℕ => m.val q.2 q.1) (x0, y0) hz
      · intro q hq
        exact hprop q (List.mem_cons_of_mem p hq)
      · by_cases hp : p = (x0, y0)
        · subst hp
          left
          simp only [Prod.mk.injEq]
          exact ⟨hz, trivial⟩
        · right
          constructor
          · rcases lt_or_eq_of_le (hprop p (by simp)).1 with h | h
            · exact h
            · exact absurd ((hprop p (by simp)).2 h.symm) hp
          · rcases List.mem_cons.mp hmem with h | h
            · exact absurd h.symm hp
            · exact h

/-- C5: a template pasted verbatim into the region at offset (x0, y0) that
matches nowhere else scores 0 there, the minimum scan reports score 0 at
exactly that offset, a single attempt of the search at the default
confidence 0.15 returns the rectangle at that offset, and the full retry
loop returns the same rectangle for every positive retry budget, so no
retry is consumed. -/
theorem claim_C5_exact_match (t : Template) (im : SearchImg) (x0 y0 : ℕ)
    (hth : 0 < t.th) (htw : 0 < t.tw)
    (hxw : x0 + t.tw ≤ im.iw) (hyh : y0 + t.th ≤ im.ih)
    (hpaste : ∀ r k, r < t.th → k < t.tw →
      im.pix (y0 + r) (x0 + k) = t.pix r k)
    (huniq : ∀ x y, x < im.iw - t.tw + 1 → y < im.ih - t.th + 1 →
      (x, y) ≠ (x0, y0) → 0 < sqdiff_score t im x y) :
    sqdiff_score t im x0 y0 = 0 ∧
    (matchTemplateSqdiff t im).minScan = (0, (x0, y0)) ∧
    search_img_in_img (matchTemplateSqdiff t im) t.th t.tw (3/20) =
      some (Rectangle.from_points ⟨(x0 : ℤ), (y0 : ℤ)⟩
        ⟨(x0 : ℤ) + (t.tw : ℤ), (y0 : ℤ) + (t.th : ℤ)⟩) ∧
    ∀ n, search_loop (matchTemplateSqdiff t im) t.th t.tw none (3/20)
        (n + 1) =
      some (Rectangle.from_points ⟨(x0 : ℤ), (y0 : ℤ)⟩
        ⟨(x0 : ℤ) + (t.tw : ℤ), (y0 : ℤ) + (t.th : ℤ)⟩) := by
  have hz : sqdiff_score t im x0 y0 = 0 := by
    unfold sqdiff_score
    apply Finset.sum_eq_zero
    intro r hr
    apply Finset.sum_eq_zero
    intro c hc
    rw [hpaste r c (Finset.mem_range.mp hr) (Finset.mem_range.mp hc)]
    simp [pixSqDiff]
  have hnn : ∀ x y, 0 ≤ sqdiff_score t im x y := by
    intro x y
    unfold sqdiff_score
    apply Finset.sum_nonneg
    intro r _
    apply Finset.sum_nonneg
    intro c _
    unfold pixSqDiff
    positivity
  have hscan : (matchTemplateSqdiff t im).minScan = (0, (x0, y0)) := by
    apply minScan_unique_zero
    · show y0 < im.ih - t.th + 1
      omega
    · show x0 < im.iw - t.tw + 1
      omega
    · exact hz
    · intro p hp
      rw [mem_positions] at hp
      refine ⟨hnn p.1 p.2, fun h0 => ?_⟩
      by_contra hne
      have hne2 : (p.1, p.2) ≠ ((x0 : ℕ), (y0 : ℕ)) := by simpa using hne
      exact absurd h0 (ne_of_gt (huniq p.1 p.2 hp.2 hp.1 hne2))
  have hsearch : search_img_in_img (matchTemplateSqdiff t im) t.th t.tw
      (3/20) =
      some (Rectangle.from_points ⟨(x0 : ℤ), (y0 : ℤ)⟩
        ⟨(x0 : ℤ) + (t.tw : ℤ), (y0 : ℤ) + (t.th : ℤ)⟩) := by
    simp only [search_img_in_img, hscan]
    norm_num
  exact ⟨hz, hscan, hsearch, fun n => by simp only [search_loop, hsearch]⟩

/-- C5, witness: a 1 x 1 opaque template with pixel (1, 1, 1) pasted at
offset (0, 0) of a 1 x 2 image whose other pixel differs; the search
returns the rectangle at that offset on the first attempt with score 0. -/
theorem claim_C5_witness :
    sqdiff_score ⟨1, 1, fun _ _ => (1, 1, 1), fun _ _ => 255⟩
      ⟨1, 2, fun _ c => if c = 0 then (1, 1, 1) else (9, 9, 9)⟩ 0 0 = 0 ∧
    search_loop (matchTemplateSqdiff
        ⟨1, 1, fun _ _ => (1, 1, 1), fun _ _ => 255⟩
        ⟨1, 2, fun _ c => if c = 0 then (1, 1, 1) else (9, 9, 9)⟩) 1 1 none
      (3/20) 1 =
      some (Rectangle.from_points ⟨0, 0⟩ ⟨1, 1⟩) := by
  have h := claim_C5_exact_match
    ⟨1, 1, fun _ _ => (1, 1, 1), fun _ _ => 255⟩
    ⟨1, 2, fun _ c => if c = 0 then (1, 1, 1) else (9, 9, 9)⟩ 0 0
    (by decide) (by decide) (by decide) (by decide)
    (by
      intro r k hr hk
      interval_cases r <;> interval_cases k <;> rfl)
    (by
      intro x y hx hy hne
      interval_cases x <;> interval_cases y
      · exact absurd rfl hne
      · norm_num [sqdiff_score, pixSqDiff])
  refine ⟨h.1, ?_⟩
  have h4 := h.2.2.2 0
  simpa using h4

/-! ## C6: unsupported characters in the OCR phrase search -/

/-- C6: the claim holds for a single-string input, where every
font-unsupported character is silently removed, but fails for a list input:
the character-removal handler calls text.replace on the list, which has no
replace attribute, so the search raises AttributeError instead of
proceeding.  With the font supporting only the characters h and i, searching
the string input "hi!x" proceeds with "hi", while the list input containing
"hi!" raises. -/
theorem claim_C6_list_input_raises :
    (∀ (font chars : List Char) (s : String), ∃ s2,
      drop_unsupported font chars (.inl s) = .ok (.inl s2)) ∧
    find_textbox_filter ['h', 'i'] (.inl "hi!x") = .ok (.inl "hi") ∧
    find_textbox_filter ['h', 'i'] (.inr ["hi!"]) =
      .error "AttributeError: list object has no attribute replace" := by
  refine ⟨?_, rfl, rfl⟩
  intro font chars
  induction chars with
  | nil => intro s; exact ⟨s, rfl⟩
  | cons c rest ih =>
      intro s
      by_cases hc : c ∈ font
      · obtain ⟨s2, hs2⟩ := ih s
        exact ⟨s2, by simp [drop_unsupported, hc, hs2]⟩
      · obtain ⟨s2, hs2⟩ := ih (str_remove_char s c)
        exact ⟨s2, by simp [drop_unsupported, hc, hs2]⟩
